import Mathlib

/-!
Shallow embedding of the github-contribution-statistics program (main.go).

The HTTP world is modelled as an oracle `String → Option HttpResp`: for a
request URL it yields `none` (transport failure) or a response consisting of
the status code, the `Link` header, and the result of decoding the JSON body
as a pull-request list respectively a commit list.  The pagination loop of
`fetchAllPages` is given explicit fuel (the Go loop has none; every theorem
assumes enough fuel for the run it describes) and additionally counts the
HTTP requests it issues.  Go `time.Parse` for the two layouts used by the
program (RFC3339 and "2006-01-02") is modelled by executable parsers over
the character list of the input, producing an absolute instant in
nanoseconds; `Time.After` / `Time.Before` become integer comparisons on
that instant.
-/

/-- Author reference as decoded from the JSON `user.login` field. -/
structure GoUser where
  login : String
deriving DecidableEq

/-- Mirrors the Go struct `PullRequest` (title, html_url, created_at, user.login). -/
structure PullRequest where
  title : String
  url : String
  createdAt : String
  user : GoUser
deriving DecidableEq

/-- Mirrors the Go struct `Issue`; the fields coincide with `PullRequest`,
and the program decodes issues with the pull-request shape and converts. -/
structure Issue where
  title : String
  url : String
  createdAt : String
  user : GoUser
deriving DecidableEq

/-- Mirrors the Go struct `Commit` (title, html_url, created_at). -/
structure Commit where
  title : String
  url : String
  createdAt : String
deriving DecidableEq

/-- Mirrors the Go struct `Statistics`. -/
structure Statistics where
  PRsCount : Nat
  PRStats : List PullRequest
  IssuesCount : Nat
  IssueStats : List Issue
  CommitsCount : Nat
  CommitStats : List Commit
deriving DecidableEq

/-- The Go conversion `Issue(issue)` applied to each filtered issue item. -/
def issueOfPR (p : PullRequest) : Issue :=
  ⟨p.title, p.url, p.createdAt, p.user⟩

/-- The zero value `Statistics\x7b\x7d` returned by the Go code on every error path. -/
def zeroStats : Statistics := ⟨0, [], 0, [], 0, []⟩

/-- One HTTP response as observed by the program: status code, `Link` header,
and what `json.Decode` would produce for the two target shapes used
(`[]PullRequest` and `[]Commit`); `none` means the body does not decode. -/
structure HttpResp where
  statusCode : Nat
  linkHeader : String
  bodyPRs : Option (List PullRequest)
  bodyCommits : Option (List Commit)
deriving DecidableEq

/-- Errors surfaced by the pipeline: transport failure from `client.Do`,
the status error of `decodeResponse`, a JSON decode failure, and fuel
exhaustion (an artifact of the embedding, never reached in the theorems). -/
inductive GoError where
  | transport : GoError
  | status : Nat → GoError
  | decode : GoError
  | fuelOut : GoError
deriving DecidableEq

deriving instance DecidableEq for Except

/- ----------------------------------------------------------------- -/
/- String utilities mirroring the Go strings package as used here.   -/
/- ----------------------------------------------------------------- -/

/-- Whitespace per Go `unicode.IsSpace` (the set relevant to `strings.TrimSpace`). -/
def isGoSpace (c : Char) : Bool :=
  let n := c.toNat
  n == 32 || (decide (9 ≤ n) && decide (n ≤ 13)) || n == 0x85 || n == 0xA0 ||
    n == 0x1680 || (decide (0x2000 ≤ n) && decide (n ≤ 0x200A)) ||
    n == 0x2028 || n == 0x2029 || n == 0x202F || n == 0x205F || n == 0x3000

/-- Go `strings.Split` on a one-character separator, over character lists;
like Go, it never yields an empty list and splits "" into [""]. -/
def splitOnChar (sep : Char) : List Char → List (List Char)
  | [] => [[]]
  | c :: cs =>
    if c = sep then [] :: splitOnChar sep cs
    else
      match splitOnChar sep cs with
      | [] => [[c]]
      | g :: gs => (c :: g) :: gs

/-- Go `strings.TrimSpace` over character lists. -/
def trimSpaceChars (cs : List Char) : List Char :=
  ((cs.dropWhile isGoSpace).reverse.dropWhile isGoSpace).reverse

/-- Go `strings.Trim(s, "<>")` over character lists. -/
def trimAngles (cs : List Char) : List Char :=
  ((cs.dropWhile fun c => c = '<' || c = '>').reverse.dropWhile
    (fun c => c = '<' || c = '>')).reverse

/-- The characters of the literal the Go code compares against. -/
def relNextChars : List Char := "rel=\"next\"".data

/-- Whether one comma-separated `Link` entry is a rel-next entry, exactly as
the Go loop tests it: trim the entry, split on ";", demand exactly two
components whose second trims to the rel-next literal. -/
def isNextComponent (l : List Char) : Bool :=
  match splitOnChar ';' (trimSpaceChars l) with
  | [_, c1] => trimSpaceChars c1 == relNextChars
  | _ => false

/-- The search loop of `extractNextPageURL` over the split entries: the first
rel-next entry yields its URL component trimmed of angle brackets. -/
def findNextChars : List (List Char) → List Char
  | [] => []
  | l :: ls =>
    match splitOnChar ';' (trimSpaceChars l) with
    | [c0, c1] =>
      if trimSpaceChars c1 == relNextChars then trimAngles c0
      else findNextChars ls
    | _ => findNextChars ls

/-- Go `extractNextPageURL`: scan the comma-separated `Link` header for a
rel-next entry; empty string when none is found. -/
def extractNextPageURL (linkHeader : String) : String :=
  ⟨findNextChars (splitOnChar ',' linkHeader.data)⟩

/- ----------------------------------------------------------------- -/
/- Go time.Parse for the two layouts the program uses.               -/
/- ----------------------------------------------------------------- -/

/-- Numeric value of a decimal digit character. -/
def digitVal (c : Char) : Nat := c.toNat - 48

/-- Consume exactly two decimal digits. -/
def take2Digits : List Char → Option (Nat × List Char)
  | a :: b :: rest =>
    if a.isDigit && b.isDigit then some (digitVal a * 10 + digitVal b, rest)
    else none
  | _ => none

/-- Consume exactly four decimal digits. -/
def take4Digits : List Char → Option (Nat × List Char)
  | a :: b :: c :: d :: rest =>
    if a.isDigit && b.isDigit && c.isDigit && d.isDigit then
      some (((digitVal a * 10 + digitVal b) * 10 + digitVal c) * 10 + digitVal d, rest)
    else none
  | _ => none

/-- Parse the leading "YYYY-MM-DD" of both Go layouts, returning the rest. -/
def parseDatePart (cs : List Char) : Option (Nat × Nat × Nat × List Char) :=
  match take4Digits cs with
  | some (y, '-' :: cs1) =>
    match take2Digits cs1 with
    | some (mo, '-' :: cs2) =>
      match take2Digits cs2 with
      | some (d, cs3) => some (y, mo, d, cs3)
      | none => none
    | _ => none
  | _ => none

/-- Consume one or two decimal digits, greedily, as Go getnum does in
non-fixed mode: two digits when the second character is also a digit,
otherwise one.  The hour chunk of the RFC3339 layout is parsed this way by
the general parser Go falls back to, so a single-digit hour is accepted. -/
def takeHourDigits : List Char → Option (Nat × List Char)
  | [] => none
  | [a] => if a.isDigit then some (digitVal a, []) else none
  | a :: b :: rest =>
    if a.isDigit then
      if b.isDigit then some (digitVal a * 10 + digitVal b, rest)
      else some (digitVal a, b :: rest)
    else none

/-- Parse "HH:MM:SS", returning the rest: the hour may have one or two
digits (Go parses it in non-fixed mode), minutes and seconds exactly two. -/
def parseTimePart (cs : List Char) : Option (Nat × Nat × Nat × List Char) :=
  match takeHourDigits cs with
  | some (h, ':' :: cs1) =>
    match take2Digits cs1 with
    | some (mi, ':' :: cs2) =>
      match take2Digits cs2 with
      | some (s, cs3) => some (h, mi, s, cs3)
      | none => none
    | _ => none
  | _ => none

/-- Collect a maximal run of leading decimal digits. -/
def takeDigitRun : List Char → List Nat × List Char
  | [] => ([], [])
  | c :: cs =>
    if c.isDigit then
      match takeDigitRun cs with
      | (ds, rest) => (digitVal c :: ds, rest)
    else ([], c :: cs)

/-- Nanoseconds denoted by a fractional-second digit run (first nine digits,
right-padded with zeros), as Go computes them. -/
def nanoOfFracDigits (ds : List Nat) : Nat :=
  ((ds.take 9).foldl (fun a x => a * 10 + x) 0) * 10 ^ (9 - (ds.take 9).length)

/-- Optional fractional seconds: Go accepts a point or comma followed by at
least one digit even though the RFC3339 layout itself carries no fraction. -/
def parseFracPart (cs : List Char) : Option (Nat × List Char) :=
  match cs with
  | [] => some (0, [])
  | c :: rest =>
    if c == '.' || c == ',' then
      match takeDigitRun rest with
      | ([], _) => none
      | (ds, rest2) => some (nanoOfFracDigits ds, rest2)
    else some (0, c :: rest)

/-- Zone suffix: a final 'Z', or a sign with "HH:MM" closing the string;
offset result in seconds east of UTC.  Go range-checks the components with
"hr > 24" and "mm > 60" (deliberately admitting offsets of 24 hours or 60
minutes), so "+24:00" and "+23:60" are accepted. -/
def parseZonePart (cs : List Char) : Option Int :=
  match cs with
  | ['Z'] => some 0
  | c :: rest =>
    if c == '+' || c == '-' then
      match take2Digits rest with
      | some (oh, ':' :: rest1) =>
        match take2Digits rest1 with
        | some (om, []) =>
          if decide (oh ≤ 24) && decide (om ≤ 60) then
            some (if c == '-' then -(((oh * 3600 + om * 60 : Nat) : Int))
                  else ((oh * 3600 + om * 60 : Nat) : Int))
          else none
        | _ => none
      | _ => none
    else none
  | [] => none

/-- Leap years of the proleptic Gregorian calendar, as Go determines them. -/
def isLeapYear (y : Nat) : Bool :=
  y % 4 == 0 && (y % 100 != 0 || y % 400 == 0)

/-- Length of a month, respecting leap years. -/
def daysInMonth (y m : Nat) : Nat :=
  if m == 2 then (if isLeapYear y then 29 else 28)
  else if m == 4 || m == 6 || m == 9 || m == 11 then 30
  else 31

/-- Days of the year preceding month `m` in a common year. -/
def monthDaysBefore (m : Nat) : Nat :=
  match m with
  | 1 => 0
  | 2 => 31
  | 3 => 59
  | 4 => 90
  | 5 => 120
  | 6 => 151
  | 7 => 181
  | 8 => 212
  | 9 => 243
  | 10 => 273
  | 11 => 304
  | 12 => 334
  | _ => 0

/-- Days from 0000-01-01 to the given calendar day (proleptic Gregorian). -/
def daysSinceYearZero (y m d : Nat) : Nat :=
  let leaps := if y == 0 then 0 else (y - 1) / 4 - (y - 1) / 100 + (y - 1) / 400 + 1
  y * 365 + leaps + monthDaysBefore m +
    (if decide (2 < m) && isLeapYear y then 1 else 0) + (d - 1)

/-- An absolute instant: nanoseconds on the timeline Go compares with
`Time.After` / `Time.Before` (offset already subtracted out). -/
structure GoTime where
  nanos : Int
deriving DecidableEq

/-- Go `Time.After`. -/
def GoTime.after (t u : GoTime) : Bool := decide (u.nanos < t.nanos)

/-- Go `Time.Before`. -/
def GoTime.before (t u : GoTime) : Bool := decide (t.nanos < u.nanos)

/-- Assemble the instant of a parsed date-time with zone offset (seconds). -/
def mkGoTime (y mo d h mi s nano : Nat) (offset : Int) : GoTime :=
  ⟨((daysSinceYearZero y mo d : Int) * 86400 +
      ((h * 3600 + mi * 60 + s : Nat) : Int) - offset) * 1000000000 + (nano : Int)⟩

/-- Range checks Go applies to an RFC3339 date-time. -/
def timeValid (y mo d h mi s : Nat) : Bool :=
  decide (1 ≤ mo) && decide (mo ≤ 12) && decide (1 ≤ d) &&
    decide (d ≤ daysInMonth y mo) && decide (h ≤ 23) && decide (mi ≤ 59) &&
    decide (s ≤ 59)

/-- Go `time.Parse(time.RFC3339, str)`: full date, literal 'T', the time
(one- or two-digit hour, two-digit minutes and seconds), optional fraction,
mandatory zone, with range validation.  Go tries a strict fast path and
then always falls back to its general layout parser, whose acceptance set
strictly contains the fast path's one; this definition models that general
parser, i.e. the set of strings Parse accepts. -/
def parseRFC3339 (str : String) : Option GoTime :=
  match parseDatePart str.data with
  | some (y, mo, d, 'T' :: rest) =>
    match parseTimePart rest with
    | some (h, mi, s, rest1) =>
      match parseFracPart rest1 with
      | some (nano, rest2) =>
        match parseZonePart rest2 with
        | some off =>
          if timeValid y mo d h mi s then some (mkGoTime y mo d h mi s nano off)
          else none
        | none => none
      | none => none
    | none => none
  | _ => none

/-- Go `time.Parse("2006-01-02", str)`: the whole input must be one valid
calendar date; the resulting instant is midnight UTC of that day. -/
def parseDateLayout (str : String) : Option GoTime :=
  match parseDatePart str.data with
  | some (y, mo, d, []) =>
    if decide (1 ≤ mo) && decide (mo ≤ 12) && decide (1 ≤ d) &&
        decide (d ≤ daysInMonth y mo) then
      some (mkGoTime y mo d 0 0 0 0 0)
    else none
  | _ => none

/-- Go `isWithinDateRange`: parse all three strings as RFC3339, returning
false on the first failure, else compare strictly on both ends. -/
def isWithinDateRange (date startDate endDate : String) : Bool :=
  match parseRFC3339 date with
  | none => false
  | some parsedDate =>
    match parseRFC3339 startDate with
    | none => false
    | some parsedStartDate =>
      match parseRFC3339 endDate with
      | none => false
      | some parsedEndDate =>
        parsedDate.after parsedStartDate && parsedDate.before parsedEndDate

/-- Go `validateTime` as a predicate: true when both flags parse with the
"2006-01-02" layout and the end does not precede the start (the Go code
calls `log.Fatal`, i.e. aborts, exactly when this is false). -/
def validateTime (startTime endTime : String) : Bool :=
  match parseDateLayout startTime with
  | none => false
  | some sDate =>
    match parseDateLayout endTime with
    | none => false
    | some eDate => !(eDate.before sDate)

/- ----------------------------------------------------------------- -/
/- Pagination.                                                       -/
/- ----------------------------------------------------------------- -/

/-- Go `decodeResponse` specialised to the `[]PullRequest` target: any
status other than 200 is a status error, then the body must decode. -/
def decodeResponsePR (r : HttpResp) : Except GoError (List PullRequest) :=
  if r.statusCode ≠ 200 then .error (.status r.statusCode)
  else
    match r.bodyPRs with
    | none => .error .decode
    | some d => .ok d

/-- Go `decodeResponse` specialised to the `[]Commit` target. -/
def decodeResponseCommit (r : HttpResp) : Except GoError (List Commit) :=
  if r.statusCode ≠ 200 then .error (.status r.statusCode)
  else
    match r.bodyCommits with
    | none => .error .decode
    | some d => .ok d

/-- The loop of Go `fetchAllPages`: while the URL is nonempty, issue the
request, decode, append, and follow the rel-next link.  `fuel` bounds the
iterations of the embedding; the second component counts issued requests. -/
def fetchAllPagesAux (client : String → Option HttpResp) :
    Nat → String → List PullRequest → Nat →
    Except GoError (List PullRequest) × Nat
  | 0, url, acc, n => if url = "" then (.ok acc, n) else (.error .fuelOut, n)
  | fuel' + 1, url, acc, n =>
    if url = "" then (.ok acc, n)
    else
      match client url with
      | none => (.error .transport, n + 1)
      | some r =>
        match decodeResponsePR r with
        | .error e => (.error e, n + 1)
        | .ok data =>
          fetchAllPagesAux client fuel' (extractNextPageURL r.linkHeader)
            (acc ++ data) (n + 1)

/-- Go `fetchAllPages`, started on an empty accumulator, also reporting the
number of HTTP requests the run issued. -/
def fetchAllPages (client : String → Option HttpResp) (fuel : Nat)
    (url : String) : Except GoError (List PullRequest) × Nat :=
  fetchAllPagesAux client fuel url [] 0

/- ----------------------------------------------------------------- -/
/- Aggregation.                                                      -/
/- ----------------------------------------------------------------- -/

/-- The base URL built by `getContributorStatistics`. -/
def baseURLOf (owner nm : String) : String :=
  "https://api.github.com/repos/" ++ owner ++ "/" ++ nm

/-- The commit query URL. -/
def commitsURLOf (owner nm user startDate endDate : String) : String :=
  baseURLOf owner nm ++ "/commits?author=" ++ user ++ "&since=" ++ startDate ++
    "&until=" ++ endDate ++ "&per_page=100"

/-- The pull-request query URL. -/
def prsURLOf (owner nm user startDate endDate : String) : String :=
  baseURLOf owner nm ++ "/pulls?state=all&since=" ++ startDate ++ "&until=" ++
    endDate ++ "&creator=" ++ user ++ "&per_page=100"

/-- The issue query URL. -/
def issuesURLOf (owner nm user startDate endDate : String) : String :=
  baseURLOf owner nm ++ "/issues?state=all&since=" ++ startDate ++ "&until=" ++
    endDate ++ "&creator=" ++ user ++ "&per_page=100"

/-- The commit stage of `getContributorStatistics`: when commits are
requested, one single request (no pagination) decoded as a commit list. -/
def fetchCommitsStep (client : String → Option HttpResp) (includeCommits : Bool)
    (commitsURL : String) : Except GoError (List Commit) :=
  if includeCommits then
    match client commitsURL with
    | none => .error .transport
    | some r => decodeResponseCommit r
  else .ok []

/-- The record assembly of `getContributorStatistics`: filter pull requests
and issues by author and date window, count, and attach commit data only
when commits were requested. -/
def buildStats (user startDate endDate : String) (includeCommits : Bool)
    (commitsData : List Commit) (prsData issuesData : List PullRequest) :
    Statistics :=
  let filteredPRs := prsData.filter fun pr =>
    pr.user.login == user && isWithinDateRange pr.createdAt startDate endDate
  let filteredIssues := (issuesData.filter fun iss =>
    iss.user.login == user &&
      isWithinDateRange iss.createdAt startDate endDate).map issueOfPR
  ⟨filteredPRs.length, filteredPRs, filteredIssues.length, filteredIssues,
    if includeCommits then commitsData.length else 0,
    if includeCommits then commitsData else []⟩

/-- Go `getContributorStatistics`: commits (optional, single request), then
paginated pull requests, then paginated issues; the first failure aborts
with the zero record; success assembles the filtered record. -/
def getContributorStatistics (client : String → Option HttpResp) (fuel : Nat)
    (repoOwner repoName contributorUsername startDate endDate : String)
    (includeCommits : Bool) : Statistics × Option GoError :=
  match fetchCommitsStep client includeCommits
      (commitsURLOf repoOwner repoName contributorUsername startDate endDate) with
  | .error e => (zeroStats, some e)
  | .ok commitsData =>
    match (fetchAllPages client fuel
        (prsURLOf repoOwner repoName contributorUsername startDate endDate)).1 with
    | .error e => (zeroStats, some e)
    | .ok prsData =>
      match (fetchAllPages client fuel
          (issuesURLOf repoOwner repoName contributorUsername startDate endDate)).1 with
      | .error e => (zeroStats, some e)
      | .ok issuesData =>
        (buildStats contributorUsername startDate endDate includeCommits
          commitsData prsData issuesData, none)

/-- A well-formed chain of pages: starting from `start`, each listed page is
served with status 200 and a decodable body, and the rel-next URL extracted
from its `Link` header continues the chain, ending at `final`. -/
def chainFrom (client : String → Option HttpResp) :
    String → List (List PullRequest) → String → Prop
  | start, [], final => start = final
  | start, p :: ps, final =>
    start ≠ "" ∧ ∃ r, client start = some r ∧ r.statusCode = 200 ∧
      r.bodyPRs = some p ∧
      chainFrom client (extractNextPageURL r.linkHeader) ps final

/-- What the specification describes for the commit category: drain the
commit endpoint via the paginator, concatenating the pages reached by
rel-next links.  Stated from the wording of the spec for comparison with
the implementation, which issues a single commit request. -/
def drainCommitsPaginator (client : String → Option HttpResp) :
    Nat → String → List Commit → Except GoError (List Commit)
  | 0, url, acc => if url = "" then .ok acc else .error .fuelOut
  | fuel' + 1, url, acc =>
    if url = "" then .ok acc
    else
      match client url with
      | none => .error .transport
      | some r =>
        match decodeResponseCommit r with
        | .error e => .error e
        | .ok data =>
          drainCommitsPaginator client fuel' (extractNextPageURL r.linkHeader)
            (acc ++ data)

/- ----------------------------------------------------------------- -/
/- Concrete fixtures used by the witness and counterexample proofs.  -/
/- ----------------------------------------------------------------- -/

/-- A pull request authored by alice inside the 2022 window. -/
def prAlice : PullRequest :=
  ⟨"pr by alice", "https://x/pr1", "2022-06-01T10:00:00Z", ⟨"alice"⟩⟩

/-- A pull request authored by bob inside the 2022 window. -/
def prBob : PullRequest :=
  ⟨"pr by bob", "https://x/pr2", "2022-06-01T11:00:00Z", ⟨"bob"⟩⟩

/-- A pull request by alice served on a second page. -/
def prPage2 : PullRequest :=
  ⟨"second page pr", "https://x/pr3", "2022-06-02T10:00:00Z", ⟨"alice"⟩⟩

/-- First page of a two-page run, linking to the second. -/
def respA1 : HttpResp :=
  ⟨200, "<https://x/p2>; rel=\"next\"", some [prAlice, prBob], none⟩

/-- Second page of a two-page run, with no next link. -/
def respA2 : HttpResp := ⟨200, "", some [prPage2], none⟩

/-- A two-page world for the pagination theorems. -/
def clientA (url : String) : Option HttpResp :=
  if url = "https://x/p1" then some respA1
  else if url = "https://x/p2" then some respA2
  else none

/-- A 2xx (but not 200) response with a perfectly decodable body. -/
def resp201 : HttpResp := ⟨201, "", some [], none⟩

/-- A world answering status 201 everywhere. -/
def client201 (_ : String) : Option HttpResp := some resp201

/-- A 404 response. -/
def resp404 : HttpResp := ⟨404, "", none, none⟩

/-- A world with one good page whose next link leads to a 404. -/
def clientB (url : String) : Option HttpResp :=
  if url = "https://x/p1" then some respA1
  else if url = "https://x/p2" then some resp404
  else none

/-- A 200 page whose `Link` header has entries but none with rel next. -/
def respNoNext : HttpResp :=
  ⟨200, "<https://x/p9>; rel=\"prev\"", some [prAlice], none⟩

/-- A world serving the single no-next page. -/
def clientC (url : String) : Option HttpResp :=
  if url = "https://x/p1" then some respNoNext else none

/-- A single 200 page with two pull requests and no next link, used as the
uniform answer of the aggregation worlds. -/
def respD : HttpResp := ⟨200, "", some [prAlice, prBob], some []⟩

/-- A world answering the same 200 page everywhere. -/
def clientD (_ : String) : Option HttpResp := some respD

/-- A commit on the first commit page. -/
def cA : Commit := ⟨"commit A", "https://x/cA", "2022-06-01T00:00:00Z"⟩

/-- A commit on the second commit page. -/
def cB : Commit := ⟨"commit B", "https://x/cB", "2022-06-02T00:00:00Z"⟩

/-- First commit page; its `Link` header advertises a next page. -/
def respC1 : HttpResp :=
  ⟨200, "<https://x/c2>; rel=\"next\"", some [], some [cA]⟩

/-- Second commit page. -/
def respC2 : HttpResp := ⟨200, "", some [], some [cB]⟩

/-- An empty 200 page for the pull-request and issue queries. -/
def respEmpty : HttpResp := ⟨200, "", some [], some []⟩

/-- The world of the commit-pagination scenario: the commit URL answers the
first commit page (whose next link points at a second page that exists),
and every other query gets an empty 200 page. -/
def clientC9 (url : String) : Option HttpResp :=
  if url = "https://x/c2" then some respC2
  else if url = commitsURLOf "o" "r" "alice" "2022-01-01" "2022-12-31" then
    some respC1
  else some respEmpty

/-- A commit response whose pull-request decoding fails. -/
def respF : HttpResp := ⟨200, "", none, some [cA]⟩

/-- A world where only the commit request succeeds and every other request
dies in transport. -/
def clientF (url : String) : Option HttpResp :=
  if url = commitsURLOf "o" "r" "alice" "2022-01-01" "2022-12-31" then
    some respF
  else none

/- ----------------------------------------------------------------- -/
/- Helper lemmas.                                                    -/
/- ----------------------------------------------------------------- -/

/-- When no entry of the split header passes the rel-next test, the search
loop comes back empty. -/
theorem findNextChars_eq_nil (ls : List (List Char))
    (h : ∀ l ∈ ls, isNextComponent l = false) : findNextChars ls = [] := by
  induction ls with
  | nil => rfl
  | cons l ls ih =>
    have hl := h l (List.mem_cons_self l ls)
    have hrest : ∀ x ∈ ls, isNextComponent x = false :=
      fun x hx => h x (List.mem_cons_of_mem l hx)
    rw [findNextChars]
    split
    · rename_i c0 c1 heq
      unfold isNextComponent at hl
      rw [heq] at hl
      simp only at hl
      rw [if_neg (by simp [hl])]
      exact ih hrest
    · exact ih hrest

/-- A header with no rel-next entry extracts to the empty URL. -/
theorem extractNextPageURL_eq_empty (linkHeader : String)
    (h : ∀ l ∈ splitOnChar ',' linkHeader.data, isNextComponent l = false) :
    extractNextPageURL linkHeader = "" := by
  unfold extractNextPageURL
  rw [findNextChars_eq_nil _ h]

/-- The loop stops at an empty URL for any fuel. -/
theorem fetchAllPagesAux_emptyURL (client : String → Option HttpResp)
    (fuel : Nat) (acc : List PullRequest) (n : Nat) :
    fetchAllPagesAux client fuel "" acc n = (.ok acc, n) := by
  cases fuel <;> simp [fetchAllPagesAux]

/-- One successful loop iteration. -/
theorem fetchAllPagesAux_step (client : String → Option HttpResp)
    (fuel' : Nat) (url : String) (acc : List PullRequest) (n : Nat)
    (r : HttpResp) (data : List PullRequest) (hne : url ≠ "")
    (hr : client url = some r) (hdec : decodeResponsePR r = .ok data) :
    fetchAllPagesAux client (fuel' + 1) url acc n =
      fetchAllPagesAux client fuel' (extractNextPageURL r.linkHeader)
        (acc ++ data) (n + 1) := by
  simp [fetchAllPagesAux, if_neg hne, hr, hdec]

/-- One failing loop iteration: the decode step rejects the response. -/
theorem fetchAllPagesAux_stepError (client : String → Option HttpResp)
    (fuel' : Nat) (url : String) (acc : List PullRequest) (n : Nat)
    (r : HttpResp) (e : GoError) (hne : url ≠ "")
    (hr : client url = some r) (hdec : decodeResponsePR r = .error e) :
    fetchAllPagesAux client (fuel' + 1) url acc n = (.error e, n + 1) := by
  simp [fetchAllPagesAux, if_neg hne, hr, hdec]

/-- Traversing a well-formed chain accumulates the concatenation of its
pages and one request per page, then continues from the final URL. -/
theorem fetchAllPagesAux_chain (client : String → Option HttpResp)
    (pages : List (List PullRequest)) :
    ∀ (start final : String) (fuel : Nat) (acc : List PullRequest) (n : Nat),
      chainFrom client start pages final → pages.length ≤ fuel →
      fetchAllPagesAux client fuel start acc n =
        fetchAllPagesAux client (fuel - pages.length) final (acc ++ pages.flatten)
          (n + pages.length) := by
  induction pages with
  | nil =>
    intro start final fuel acc n h _
    simp only [chainFrom] at h
    subst h
    simp
  | cons p ps ih =>
    intro start final fuel acc n h hfuel
    simp only [chainFrom] at h
    obtain ⟨hne, r, hr, hst, hb, hrest⟩ := h
    match fuel, hfuel with
    | fuel' + 1, hfuel =>
      have hdec : decodeResponsePR r = .ok p := by
        simp [decodeResponsePR, hst, hb]
      rw [fetchAllPagesAux_step client fuel' start acc n r p hne hr hdec]
      rw [ih (extractNextPageURL r.linkHeader) final fuel' (acc ++ p) (n + 1)
        hrest (by simpa using hfuel)]
      simp only [List.flatten_cons, List.append_assoc, List.length_cons]
      congr 1
      · omega
      · omega

/-- Every run of the aggregator either aborts with the zero record and an
error, or assembles the filtered record from three successful fetches. -/
theorem getStats_shape (client : String → Option HttpResp) (fuel : Nat)
    (owner nm user sd ed : String) (inc : Bool) :
    (∃ e, getContributorStatistics client fuel owner nm user sd ed inc =
      (zeroStats, some e)) ∨
    (∃ cd pd idd, getContributorStatistics client fuel owner nm user sd ed inc =
      (buildStats user sd ed inc cd pd idd, none)) := by
  cases h1 : fetchCommitsStep client inc (commitsURLOf owner nm user sd ed) with
  | error e => exact Or.inl ⟨e, by simp [getContributorStatistics, h1]⟩
  | ok cd =>
    cases h2 : (fetchAllPages client fuel (prsURLOf owner nm user sd ed)).1 with
    | error e => exact Or.inl ⟨e, by simp [getContributorStatistics, h1, h2]⟩
    | ok pd =>
      cases h3 : (fetchAllPages client fuel (issuesURLOf owner nm user sd ed)).1 with
      | error e => exact Or.inl ⟨e, by simp [getContributorStatistics, h1, h2, h3]⟩
      | ok idd =>
        exact Or.inr ⟨cd, pd, idd, by simp [getContributorStatistics, h1, h2, h3]⟩

/-- A window for which the date filter always says false filters every
pull-request list to nothing. -/
theorem filter_window_nil (user sd ed : String)
    (h : ∀ d, isWithinDateRange d sd ed = false) (l : List PullRequest) :
    (l.filter fun pr =>
      pr.user.login == user && isWithinDateRange pr.createdAt sd ed) = [] := by
  induction l with
  | nil => rfl
  | cons a l ih => simp [List.filter_cons, h, ih]

/-- A "2006-01-02" input can never also parse as RFC3339: the date layout
consumes the whole string, while RFC3339 demands a literal T after the day. -/
theorem parseDateLayout_rfc_none (s : String) (t : GoTime)
    (h : parseDateLayout s = some t) : parseRFC3339 s = none := by
  unfold parseDateLayout at h
  unfold parseRFC3339
  cases hp : parseDatePart s.data with
  | none => rfl
  | some q =>
    obtain ⟨y, mo, dd, rest⟩ := q
    cases rest with
    | nil => rfl
    | cons c cs =>
      rw [hp] at h
      simp at h

/- ----------------------------------------------------------------- -/
/- Claim theorems.                                                   -/
/- ----------------------------------------------------------------- -/

/-- C1: for every well-formed pagination sequence (each page served with
status 200 and a decodable body, consecutive pages linked by the extracted
rel-next URL, the last page extracting to the empty URL), `fetchAllPages`
returns exactly the concatenation of the pages in page order and issues
exactly one HTTP request per page. -/
theorem C1_paginator_returns_concatenation (client : String → Option HttpResp)
    (start : String) (pages : List (List PullRequest)) (fuel : Nat)
    (h : chainFrom client start pages "") (hfuel : pages.length ≤ fuel) :
    fetchAllPages client fuel start = (.ok pages.flatten, pages.length) := by
  unfold fetchAllPages
  rw [fetchAllPagesAux_chain client pages start "" fuel [] 0 h hfuel]
  rw [fetchAllPagesAux_emptyURL]
  simp

/-- C1 witness: a concrete two-page run returns both pages concatenated in
order with exactly two requests. -/
theorem C1_witness :
    fetchAllPages clientA 2 "https://x/p1" = (.ok [prAlice, prBob, prPage2], 2) := by
  have hchain : chainFrom clientA "https://x/p1" [[prAlice, prBob], [prPage2]] "" := by
    refine ⟨by decide, respA1, by decide, by decide, by decide, ?_⟩
    refine ⟨by decide, respA2, by decide, by decide, by decide, ?_⟩
    show extractNextPageURL respA2.linkHeader = ""
    decide
  have h := C1_paginator_returns_concatenation clientA "https://x/p1"
    [[prAlice, prBob], [prPage2]] 2 hchain (by decide)
  simpa using h

/-- C3 counterexample: a page with the 2xx status 201 and a perfectly
decodable JSON body is nevertheless rejected by `fetchAllPages` with a
status error, refuting the claim that every 2xx page with decodable JSON
is accepted without error. -/
theorem C3_counterexample :
    resp201.statusCode = 201 ∧ resp201.bodyPRs = some [] ∧
    fetchAllPages client201 1 "https://x/p1" = (.error (.status 201), 1) := by
  decide

/-- C3 amended: after any number of pages served with status exactly 200
and decodable bodies, a page whose status differs from 200 (in particular
any non-2xx status) makes `fetchAllPages` return an error carrying that
numeric status and no items, with one request counted for the failing
page. -/
theorem C3_amended_non200_aborts (client : String → Option HttpResp)
    (start final : String) (pages : List (List PullRequest)) (r : HttpResp)
    (fuel : Nat) (hchain : chainFrom client start pages final) (hf : final ≠ "")
    (hr : client final = some r) (hst : r.statusCode ≠ 200)
    (hfuel : pages.length + 1 ≤ fuel) :
    fetchAllPages client fuel start =
      (.error (.status r.statusCode), pages.length + 1) := by
  unfold fetchAllPages
  rw [fetchAllPagesAux_chain client pages start final fuel [] 0 hchain (by omega)]
  obtain ⟨m, hm⟩ : ∃ m, fuel - pages.length = m + 1 :=
    ⟨fuel - pages.length - 1, by omega⟩
  rw [hm]
  rw [fetchAllPagesAux_stepError client m final _ _ r (.status r.statusCode) hf hr
    (by unfold decodeResponsePR; rw [if_pos hst])]
  simp

/-- C3 witness: one good 200 page followed by a 404 page aborts the run
with the 404 status after two requests. -/
theorem C3_witness :
    fetchAllPages clientB 3 "https://x/p1" = (.error (.status 404), 2) := by
  have hchain : chainFrom clientB "https://x/p1" [[prAlice, prBob]] "https://x/p2" := by
    refine ⟨by decide, respA1, by decide, by decide, by decide, ?_⟩
    show extractNextPageURL respA1.linkHeader = "https://x/p2"
    decide
  have h := C3_amended_non200_aborts clientB "https://x/p1" "https://x/p2"
    [[prAlice, prBob]] resp404 3 hchain (by decide) (by decide) (by decide)
    (by decide)
  simpa [resp404] using h

/-- C4: a `Link` header none of whose entries passes the rel-next test
extracts to the empty URL, and a page carrying such a header therefore
ends the pagination: the run returns just that page's items after exactly
one request. -/
theorem C4_noNext_stops (client : String → Option HttpResp) (u : String)
    (r : HttpResp) (p : List PullRequest) (fuel : Nat) (hu : u ≠ "")
    (hr : client u = some r) (hst : r.statusCode = 200) (hb : r.bodyPRs = some p)
    (hn : ∀ l ∈ splitOnChar ',' r.linkHeader.data, isNextComponent l = false) :
    extractNextPageURL r.linkHeader = "" ∧
    fetchAllPages client (fuel + 1) u = (.ok p, 1) := by
  have hx := extractNextPageURL_eq_empty r.linkHeader hn
  refine ⟨hx, ?_⟩
  unfold fetchAllPages
  rw [fetchAllPagesAux_step client fuel u [] 0 r p hu hr
    (by simp [decodeResponsePR, hst, hb])]
  rw [hx, fetchAllPagesAux_emptyURL]
  simp

/-- C4 witness: a header whose only entry is a rel-prev entry terminates
the run after its single page. -/
theorem C4_witness :
    extractNextPageURL respNoNext.linkHeader = "" ∧
    fetchAllPages clientC 1 "https://x/p1" = (.ok [prAlice], 1) := by
  have h := C4_noNext_stops clientC "https://x/p1" respNoNext [prAlice] 0
    (by decide) (by decide) (by decide) (by decide) (by decide)
  simpa using h

/-- C5: whenever any of the three timestamps fails to parse as RFC3339,
`isWithinDateRange` evaluates to false; being a total boolean function, it
raises nothing and the surrounding aggregation proceeds. -/
theorem C5_malformed_is_false (date startDate endDate : String)
    (h : parseRFC3339 date = none ∨ parseRFC3339 startDate = none ∨
      parseRFC3339 endDate = none) :
    isWithinDateRange date startDate endDate = false := by
  unfold isWithinDateRange
  rcases h with h | h | h
  · rw [h]
  · cases hd : parseRFC3339 date with
    | none => rfl
    | some td => rw [h]
  · cases hd : parseRFC3339 date with
    | none => rfl
    | some td =>
      cases hs : parseRFC3339 startDate with
      | none => rfl
      | some ts => rw [h]

/-- C5 witness: an unparsable item timestamp is simply out of range. -/
theorem C5_witness :
    isWithinDateRange "not a date" "2022-01-01T00:00:00Z"
      "2022-12-31T00:00:00Z" = false :=
  C5_malformed_is_false _ _ _ (Or.inl (by decide))

/-- C2: when the item timestamp and both window bounds parse as RFC3339,
the date filter accepts exactly the instants strictly after the start and
strictly before the end; an instant equal to either bound is rejected. -/
theorem C2_dateFilter_strict_iff (date startDate endDate : String)
    (td ts te : GoTime) (hd : parseRFC3339 date = some td)
    (hs : parseRFC3339 startDate = some ts) (he : parseRFC3339 endDate = some te) :
    (isWithinDateRange date startDate endDate = true ↔
      ts.nanos < td.nanos ∧ td.nanos < te.nanos) ∧
    ((td = ts ∨ td = te) → isWithinDateRange date startDate endDate = false) := by
  have hmain : isWithinDateRange date startDate endDate =
      (td.after ts && td.before te) := by
    unfold isWithinDateRange
    rw [hd, hs, he]
  constructor
  · rw [hmain]
    simp [GoTime.after, GoTime.before]
  · intro hcase
    rw [hmain]
    rcases hcase with h | h
    · subst h
      simp [GoTime.after]
    · subst h
      simp [GoTime.before]

/-- C2 witness: a mid-January instant lies strictly inside the January
window. -/
theorem C2_witness :
    isWithinDateRange "2022-01-15T12:00:00Z" "2022-01-01T00:00:00Z"
      "2022-01-31T00:00:00Z" = true := by
  have h := C2_dateFilter_strict_iff "2022-01-15T12:00:00Z"
    "2022-01-01T00:00:00Z" "2022-01-31T00:00:00Z" _ _ _ rfl rfl rfl
  exact h.1.mpr (by decide)

/-- C6: every pull request and every issue in the returned record is
authored by the requested contributor; items by other authors never appear,
whatever the API served. -/
theorem C6_author_only (client : String → Option HttpResp) (fuel : Nat)
    (owner nm user sd ed : String) (inc : Bool) :
    (∀ pr ∈ (getContributorStatistics client fuel owner nm user sd ed inc).1.PRStats,
      pr.user.login = user) ∧
    (∀ iss ∈ (getContributorStatistics client fuel owner nm user sd ed inc).1.IssueStats,
      iss.user.login = user) := by
  rcases getStats_shape client fuel owner nm user sd ed inc with
    ⟨e, hres⟩ | ⟨cd, pd, idd, hres⟩
  · rw [hres]
    constructor <;> intro x hx <;> simp [zeroStats] at hx
  · rw [hres]
    constructor
    · intro pr hpr
      simp only [buildStats] at hpr
      have h2 := (List.mem_filter.mp hpr).2
      simp at h2
      exact h2.1
    · intro iss hiss
      simp only [buildStats] at hiss
      obtain ⟨p, hp, rfl⟩ := List.mem_map.mp hiss
      have h2 := (List.mem_filter.mp hp).2
      simp at h2
      simpa [issueOfPR] using h2.1

/-- C6 witness: in a world serving pull requests by alice and bob, an item
found in the record is by the requested contributor alice. -/
theorem C6_witness : prAlice.user.login = "alice" := by
  have h := C6_author_only clientD 1 "o" "r" "alice" "2022-01-01T00:00:00Z"
    "2023-01-01T00:00:00Z" false
  exact h.1 prAlice (by decide)

/-- C7: every record returned without error has each count equal to the
length of its paired item list. -/
theorem C7_counts_match (client : String → Option HttpResp) (fuel : Nat)
    (owner nm user sd ed : String) (inc : Bool) (stats : Statistics)
    (h : getContributorStatistics client fuel owner nm user sd ed inc =
      (stats, none)) :
    stats.PRsCount = stats.PRStats.length ∧
    stats.IssuesCount = stats.IssueStats.length ∧
    stats.CommitsCount = stats.CommitStats.length := by
  rcases getStats_shape client fuel owner nm user sd ed inc with
    ⟨e, hres⟩ | ⟨cd, pd, idd, hres⟩
  · rw [h] at hres
    simp at hres
  · rw [h] at hres
    have hstats : stats = buildStats user sd ed inc cd pd idd := by
      have := congrArg Prod.fst hres
      simpa using this
    subst hstats
    refine ⟨rfl, rfl, ?_⟩
    cases inc <;> simp [buildStats]

/-- C7 witness: a successful run over a world serving one alice item and
one bob item satisfies all three count invariants. -/
theorem C7_witness :
    (getContributorStatistics clientD 1 "o" "r" "alice" "2022-01-01T00:00:00Z"
      "2023-01-01T00:00:00Z" false).1.PRsCount =
      (getContributorStatistics clientD 1 "o" "r" "alice" "2022-01-01T00:00:00Z"
        "2023-01-01T00:00:00Z" false).1.PRStats.length ∧
    (getContributorStatistics clientD 1 "o" "r" "alice" "2022-01-01T00:00:00Z"
      "2023-01-01T00:00:00Z" false).1.IssuesCount =
      (getContributorStatistics clientD 1 "o" "r" "alice" "2022-01-01T00:00:00Z"
        "2023-01-01T00:00:00Z" false).1.IssueStats.length ∧
    (getContributorStatistics clientD 1 "o" "r" "alice" "2022-01-01T00:00:00Z"
      "2023-01-01T00:00:00Z" false).1.CommitsCount =
      (getContributorStatistics clientD 1 "o" "r" "alice" "2022-01-01T00:00:00Z"
        "2023-01-01T00:00:00Z" false).1.CommitStats.length := by
  exact C7_counts_match clientD 1 "o" "r" "alice" "2022-01-01T00:00:00Z"
    "2023-01-01T00:00:00Z" false _ rfl

/-- C8: a failure of any category's fetch or decode step (commit request,
pull-request pagination, or issue pagination) makes the aggregator return
that error together with the zero-valued record: data from earlier
successful categories is discarded. -/
theorem C8_failure_aborts (client : String → Option HttpResp) (fuel : Nat)
    (owner nm user sd ed : String) (inc : Bool) (e : GoError)
    (h : fetchCommitsStep client inc (commitsURLOf owner nm user sd ed) =
        .error e ∨
      (∃ cd, fetchCommitsStep client inc (commitsURLOf owner nm user sd ed) =
        .ok cd ∧
        (fetchAllPages client fuel (prsURLOf owner nm user sd ed)).1 =
          .error e) ∨
      (∃ cd pd, fetchCommitsStep client inc (commitsURLOf owner nm user sd ed) =
        .ok cd ∧
        (fetchAllPages client fuel (prsURLOf owner nm user sd ed)).1 = .ok pd ∧
        (fetchAllPages client fuel (issuesURLOf owner nm user sd ed)).1 =
          .error e)) :
    getContributorStatistics client fuel owner nm user sd ed inc =
      (zeroStats, some e) := by
  unfold getContributorStatistics
  rcases h with h1 | ⟨cd, h1, h2⟩ | ⟨cd, pd, h1, h2, h3⟩
  · rw [h1]
  · rw [h1, h2]
  · rw [h1, h2, h3]

/-- C8 witness: the commit request succeeds with one commit, then the
pull-request request dies in transport; the run returns the transport
error and the zero record, dropping the fetched commit. -/
theorem C8_witness :
    getContributorStatistics clientF 1 "o" "r" "alice" "2022-01-01" "2022-12-31"
      true = (zeroStats, some .transport) := by
  exact C8_failure_aborts clientF 1 "o" "r" "alice" "2022-01-01" "2022-12-31"
    true .transport (Or.inr (Or.inl ⟨[cA], by decide, by decide⟩))

/-- C9 counterexample: the commit endpoint serves a first page whose Link
header advertises a rel-next second page, yet the record keeps only the
first page, differing from the paginator-drained concatenation the claim
describes. -/
theorem C9_counterexample :
    (getContributorStatistics clientC9 2 "o" "r" "alice" "2022-01-01"
      "2022-12-31" true).1.CommitStats = [cA] ∧
    drainCommitsPaginator clientC9 2
      (commitsURLOf "o" "r" "alice" "2022-01-01" "2022-12-31") [] =
      .ok [cA, cB] ∧
    ([cA] : List Commit) ≠ [cA, cB] := by
  refine ⟨by decide, by decide, by decide⟩

/-- C9 amended: when commits are requested, the commit result is the item
list of the single response to the commit URL — one request, no link
following, no local filtering — whenever the run completes without error. -/
theorem C9_amended_commits_single_request (client : String → Option HttpResp)
    (fuel : Nat) (owner nm user sd ed : String) (r : HttpResp)
    (data : List Commit)
    (hr : client (commitsURLOf owner nm user sd ed) = some r)
    (hst : r.statusCode = 200) (hb : r.bodyCommits = some data)
    (hok : (getContributorStatistics client fuel owner nm user sd ed true).2 =
      none) :
    (getContributorStatistics client fuel owner nm user sd ed true).1.CommitStats =
      data ∧
    (getContributorStatistics client fuel owner nm user sd ed true).1.CommitsCount =
      data.length := by
  have hcs : fetchCommitsStep client true (commitsURLOf owner nm user sd ed) =
      .ok data := by
    simp [fetchCommitsStep, hr, decodeResponseCommit, hst, hb]
  unfold getContributorStatistics at hok ⊢
  rw [hcs] at hok ⊢
  cases h2 : (fetchAllPages client fuel (prsURLOf owner nm user sd ed)).1 with
  | error e =>
    rw [h2] at hok
    simp at hok
  | ok pd =>
    rw [h2] at hok
    cases h3 : (fetchAllPages client fuel (issuesURLOf owner nm user sd ed)).1 with
    | error e =>
      rw [h3] at hok
      simp at hok
    | ok idd => constructor <;> simp [buildStats]

/-- C9 witness: in the two-commit-page world, the record's commit list is
the first page alone, with the count matching. -/
theorem C9_witness :
    (getContributorStatistics clientC9 2 "o" "r" "alice" "2022-01-01"
      "2022-12-31" true).1.CommitStats = [cA] ∧
    (getContributorStatistics clientC9 2 "o" "r" "alice" "2022-01-01"
      "2022-12-31" true).1.CommitsCount = [cA].length := by
  exact C9_amended_commits_single_request clientC9 2 "o" "r" "alice"
    "2022-01-01" "2022-12-31" respC1 [cA] (by decide) (by decide) (by decide)
    (by decide)

/-- C10: a window that passes the program's input validation (both bounds
in "2006-01-02" form, end not before start) makes the date filter reject
every item, so the record's pull-request and issue counts are zero for
every world. -/
theorem C10_dateOnly_window_yields_zero (client : String → Option HttpResp)
    (fuel : Nat) (owner nm user sd ed : String) (inc : Bool)
    (hv : validateTime sd ed = true) :
    (∀ d, isWithinDateRange d sd ed = false) ∧
    (getContributorStatistics client fuel owner nm user sd ed inc).1.PRsCount = 0 ∧
    (getContributorStatistics client fuel owner nm user sd ed inc).1.IssuesCount = 0 := by
  obtain ⟨t, ht⟩ : ∃ t, parseDateLayout sd = some t := by
    unfold validateTime at hv
    cases h1 : parseDateLayout sd with
    | none => rw [h1] at hv; simp at hv
    | some t => exact ⟨t, rfl⟩
  have hnone := parseDateLayout_rfc_none sd t ht
  have hall : ∀ d, isWithinDateRange d sd ed = false := by
    intro d
    unfold isWithinDateRange
    simp only [hnone]
    cases parseRFC3339 d <;> rfl
  refine ⟨hall, ?_⟩
  rcases getStats_shape client fuel owner nm user sd ed inc with
    ⟨e, hres⟩ | ⟨cd, pd, idd, hres⟩
  · rw [hres]
    exact ⟨rfl, rfl⟩
  · rw [hres]
    constructor
    · show (buildStats user sd ed inc cd pd idd).PRsCount = 0
      simp [buildStats, filter_window_nil user sd ed hall]
    · show (buildStats user sd ed inc cd pd idd).IssuesCount = 0
      simp [buildStats, filter_window_nil user sd ed hall]

/-- C10 witness: with the validated window 2022-01-01..2022-12-31 and a
world serving pull requests by alice, an in-window RFC3339 item is still
rejected and both counts are zero. -/
theorem C10_witness :
    validateTime "2022-01-01" "2022-12-31" = true ∧
    isWithinDateRange "2022-06-01T10:00:00Z" "2022-01-01" "2022-12-31" = false ∧
    (getContributorStatistics clientD 1 "o" "r" "alice" "2022-01-01"
      "2022-12-31" false).1.PRsCount = 0 ∧
    (getContributorStatistics clientD 1 "o" "r" "alice" "2022-01-01"
      "2022-12-31" false).1.IssuesCount = 0 := by
  have h := C10_dateOnly_window_yields_zero clientD 1 "o" "r" "alice"
    "2022-01-01" "2022-12-31" false (by decide)
  exact ⟨by decide, h.1 "2022-06-01T10:00:00Z", h.2.1, h.2.2⟩
